import Mathlib

/-!
Shallow embedding of `src/providers/llm.rs`: the data types `Tokens` and
`Generation`, the derived structural equality on `Tokens`, and the `LLM`
provider contract (trait `LLM { id, name, initialize, generate }`).

The trait has no implementation under `src/`; where a claim is decided by
contract semantics rather than by the declarations themselves, a reference
provider double is modelled from the spec (sections 4.3, 7 and 8) and is
marked as such in its doc comment.
-/

set_option autoImplicit false
set_option linter.unusedVariables false

/-- Model of Rust `f32` restricted to what the derived `PartialEq` of
`Tokens` observes, namely IEEE-754 `==`.  Under `==`, every NaN bit pattern
compares unequal to everything including itself, so all NaN patterns are
collapsed into the single constructor `nan`; every non-NaN value (finite
values, with `+0.0` and `-0.0` identified since they are `==`-equal, and the
two infinities) is represented by its `==`-equivalence class: finite classes
are indexed by their exact rational value, the infinite ones by `posInf` and
`negInf`. -/
inductive F32 where
  | nan : F32
  | negInf : F32
  | num : ℚ → F32
  | posInf : F32
deriving DecidableEq

/-- IEEE-754 `==` on the `F32` model: `nan` is unequal to everything
(itself included); other values compare by equivalence class. -/
def F32.beq : F32 → F32 → Bool
  | .num a, .num b => a = b
  | .negInf, .negInf => true
  | .posInf, .posInf => true
  | _, _ => false

/-- `pub struct Tokens` (llm.rs lines 5-10): decoded text plus optional
per-token detail, with each log-probability independently nullable. -/
structure Tokens where
  text : String
  tokens : Option (List String)
  logprobs : Option (List (Option F32))
deriving DecidableEq

/-- `pub struct Generation` (llm.rs lines 12-18). -/
structure Generation where
  provider : String
  model : String
  completions : List Tokens
  prompt : Tokens
deriving DecidableEq

/-- Elementwise comparison of `Option` values, as `#[derive(PartialEq)]`
produces for `Option<T>`: both absent, or both present and equal. -/
def optBeq {α : Type} (f : α → α → Bool) : Option α → Option α → Bool
  | none, none => true
  | some a, some b => f a b
  | _, _ => false

/-- Elementwise comparison of sequences, as `PartialEq` on `Vec<T>`:
equal lengths and pairwise-equal elements. -/
def listBeq {α : Type} (f : α → α → Bool) : List α → List α → Bool
  | [], [] => true
  | a :: as, b :: bs => f a b && listBeq f as bs
  | _, _ => false

/-- The `#[derive(PartialEq)]` equality of `Tokens` (llm.rs line 5):
field-wise, with `String` equality on `text`, elementwise `String` equality
on `tokens`, and elementwise IEEE `==` on the nullable `logprobs` entries. -/
def Tokens.beq (t u : Tokens) : Bool :=
  t.text == u.text
    && optBeq (listBeq fun a b => a == b) t.tokens u.tokens
    && optBeq (listBeq (optBeq F32.beq)) t.logprobs u.logprobs

/-- A `Tokens` value whose log-probabilities contain no NaN; on these the
derived equality is reflexive. -/
def Tokens.nanFree (t : Tokens) : Bool :=
  match t.logprobs with
  | none => true
  | some ls => ls.all fun o =>
      match o with
      | some .nan => false
      | _ => true

/-- Propositional elementwise matching of `Option` values: both absent, or
both present and related. -/
def optRel {α : Type} (r : α → α → Prop) : Option α → Option α → Prop
  | none, none => True
  | some a, some b => r a b
  | _, _ => False

/-- When two `logprobs` entries compare equal under the derived equality:
both absent, or both present with the same non-NaN value. -/
def logprobEntryMatch (a b : Option F32) : Prop :=
  (a = none ∧ b = none) ∨ ∃ v : F32, v ≠ .nan ∧ a = some v ∧ b = some v

/-- Modelled from the spec (section 7): the contract's error taxonomy.  The
trait itself (llm.rs line 1) carries all failures as `anyhow::Result`, which
does not distinguish these kinds by type. -/
inductive ErrorKind where
  | configError : ErrorKind
  | invalidRequest : ErrorKind
  | backendFailure : ErrorKind
deriving DecidableEq

/-- An error as a provider raises it: a kind from the taxonomy plus a
human-readable detail message. -/
structure GenError where
  kind : ErrorKind
  msg : String
deriving DecidableEq

/-- What the `anyhow::Result` error channel (llm.rs lines 25, 34) exposes at
the type level: a single untyped error value, modelled as the display
message, with the kind erased. -/
def GenError.toAnyhow (e : GenError) : String := e.msg

/-- `matchStart pat s` holds when `pat` occurs at the very start of `s`. -/
def matchStart : List Char → List Char → Bool
  | [], _ => true
  | _ :: _, [] => false
  | p :: ps, c :: cs => p = c && matchStart ps cs

/-- Index of the first occurrence of `pat` in `s`, if any. -/
def firstOcc (pat : List Char) : List Char → Option Nat
  | [] => if matchStart pat [] then some 0 else none
  | c :: cs =>
      if matchStart pat (c :: cs) then some 0
      else (firstOcc pat cs).map (· + 1)

/-- Modelled from the spec (section 4.3, `stop`): the position where a
completion's raw output is cut: the earliest first occurrence of any stop
sequence, or the output's length when no stop sequence occurs. -/
def cutIndex (stops : List (List Char)) (s : List Char) : Nat :=
  stops.foldr (fun st acc => min ((firstOcc st s).getD s.length) acc) s.length

/-- Modelled from the spec (sections 4.3 and 8): generation ends no later
than the first occurrence of any stop sequence; the double truncates the
raw output there. -/
def cutAtStops (stops : List (List Char)) (s : List Char) : List Char :=
  s.take (cutIndex stops s)

/-- Modelled from the spec (sections 3 and 8): the Token Record the test
double produces for a piece of text: the decoded text, a per-character
tokenization covering it, and one unscored (hence absent) log-probability
slot per token. -/
def mkTokenRecord (s : String) : Tokens :=
  { text := s
    tokens := some (s.data.map fun c => String.mk [c])
    logprobs := some (s.data.map fun _ => none) }

/-- Modelled from the spec (section 8): a test-double provider instance:
configured identifiers, whether `initialize` is configured to fail, the
deterministic raw output used for each completion, and the lifecycle flag
that `initialize` sets. -/
structure Provider where
  id : String
  name : String
  model : String
  failInit : Bool
  rawOutput : String
  initialized : Bool
deriving DecidableEq

/-- Modelled from the spec (section 4.3): `initialize(&mut self)`, the
one-time setup.  The exclusive receiver is embedded as state passing: the
call returns its `Result` together with the possibly-updated instance; when
configured to fail it reports a Configuration/Setup Error. -/
def Provider.initialize (p : Provider) : Except GenError Unit × Provider :=
  if p.failInit then (.error ⟨.configError, "backend unreachable"⟩, p)
  else (.ok (), { p with initialized := true })

/-- Modelled from the spec (sections 4.3, 7 and 8): `generate(&self, ...)`
of the test double: it rejects an empty prompt and `n = 0` as Invalid
Request Errors, and otherwise echoes the prompt and returns exactly `n`
copies of its deterministic output truncated at the earliest stop-sequence
occurrence.  The shared receiver is embedded as a plain argument: no
updated instance is returned. -/
def Provider.generate (p : Provider) (prompt : String) (maxTokens : Option Int)
    (temperature : F32) (n : Nat) (stop : Option (List String)) :
    Except GenError Generation :=
  if prompt = "" then .error ⟨.invalidRequest, "empty prompt"⟩
  else if n = 0 then .error ⟨.invalidRequest, "n is zero"⟩
  else
    .ok
      { provider := p.id
        model := p.model
        completions :=
          List.replicate n
            (mkTokenRecord
              (String.mk (cutAtStops ((stop.getD []).map String.data) p.rawOutput.data)))
        prompt := mkTokenRecord prompt }

/-- Result of one trait-method call. -/
inductive OpResult where
  | str : String → OpResult
  | unitRes : Except GenError Unit → OpResult
  | genRes : Except GenError Generation → OpResult

/-- One call through the `LLM` trait interface (llm.rs lines 20-35). -/
inductive TraitOp where
  | opId : TraitOp
  | opName : TraitOp
  | opInitialize : TraitOp
  | opGenerate : String → Option Int → F32 → Nat → Option (List String) → TraitOp

/-- Dispatch one trait call on an instance, following the receiver mode of
each method's signature: `id`, `name` and `generate` take `&self`, so the
instance comes back unchanged; `initialize` takes `&mut self`, embedded as
state passing. -/
def runOp (p : Provider) : TraitOp → Provider × OpResult
  | .opId => (p, .str p.id)
  | .opName => (p, .str p.name)
  | .opInitialize =>
      let r := Provider.initialize p
      (r.2, .unitRes r.1)
  | .opGenerate prompt mt t n s => (p, .genRes (p.generate prompt mt t n s))

/-- Run a sequence of trait calls on an instance, threading the state. -/
def runOps (p : Provider) : List TraitOp → Provider
  | [] => p
  | op :: ops => runOps (runOp p op).1 ops

/-- Modelled from the spec (section 4.3): the contract obligation on the
identifier: "a stable, non-empty identifier". -/
def Provider.wf (p : Provider) : Prop := p.id ≠ ""

/-- A concrete test-double configuration, used by the witnesses. -/
def pEx : Provider :=
  { id := "prov-1"
    name := "Test Double"
    model := "double-1"
    failInit := false
    rawOutput := "hello STOP world"
    initialized := false }

/-- The Generation Result `pEx` returns for the witnesses' concrete call
`generate "hi" none 1.0 3 (some ["STOP"])`. -/
def gEx : Generation :=
  { provider := "prov-1"
    model := "double-1"
    completions := List.replicate 3 (mkTokenRecord "hello ")
    prompt := mkTokenRecord "hi" }

theorem F32.beq_symm (a b : F32) : F32.beq a b = F32.beq b a := by
  cases a <;> cases b <;> simp [F32.beq, eq_comm]

theorem F32.beq_trans {a b c : F32} (h1 : F32.beq a b = true)
    (h2 : F32.beq b c = true) : F32.beq a c = true := by
  cases a <;> cases b <;> cases c <;> simp_all [F32.beq]

theorem F32.beq_refl_of_not_nan {a : F32} (h : a ≠ .nan) :
    F32.beq a a = true := by
  cases a <;> simp_all [F32.beq]

theorem F32.beq_iff (a b : F32) :
    F32.beq a b = true ↔ a ≠ F32.nan ∧ a = b := by
  cases a <;> cases b <;> simp [F32.beq]

theorem optBeq_symm {α : Type} {f : α → α → Bool}
    (hf : ∀ a b, f a b = f b a) (x y : Option α) :
    optBeq f x y = optBeq f y x := by
  cases x <;> cases y <;> simp [optBeq, hf]

theorem optBeq_trans {α : Type} {f : α → α → Bool}
    (hf : ∀ a b c, f a b = true → f b c = true → f a c = true)
    {x y z : Option α} (h1 : optBeq f x y = true)
    (h2 : optBeq f y z = true) : optBeq f x z = true := by
  cases x <;> cases y <;> cases z <;> simp_all [optBeq]
  exact hf _ _ _ h1 h2

theorem listBeq_symm {α : Type} {f : α → α → Bool}
    (hf : ∀ a b, f a b = f b a) (xs ys : List α) :
    listBeq f xs ys = listBeq f ys xs := by
  induction xs generalizing ys with
  | nil => cases ys <;> simp [listBeq]
  | cons a as ih => cases ys <;> simp [listBeq, hf, ih]

theorem listBeq_trans {α : Type} {f : α → α → Bool}
    (hf : ∀ a b c, f a b = true → f b c = true → f a c = true)
    {xs ys zs : List α} (h1 : listBeq f xs ys = true)
    (h2 : listBeq f ys zs = true) : listBeq f xs zs = true := by
  induction xs generalizing ys zs with
  | nil => cases ys <;> cases zs <;> simp_all [listBeq]
  | cons a as ih =>
      cases ys <;> cases zs <;> simp_all [listBeq]
      exact ⟨hf _ _ _ h1.1 h2.1, ih h1.2 h2.2⟩

theorem optBeq_refl {α : Type} {f : α → α → Bool} {x : Option α}
    (hf : ∀ a, x = some a → f a a = true) : optBeq f x x = true := by
  cases x with
  | none => rfl
  | some a => exact hf a rfl

theorem listBeq_refl {α : Type} {f : α → α → Bool} {xs : List α}
    (hf : ∀ a, a ∈ xs → f a a = true) : listBeq f xs xs = true := by
  induction xs with
  | nil => rfl
  | cons a as ih =>
      simp only [listBeq, Bool.and_eq_true]
      exact ⟨hf a (List.mem_cons_self a as),
        ih fun b hb => hf b (List.mem_cons_of_mem a hb)⟩

theorem listBeq_iff_forall2 {α : Type} (f : α → α → Bool) (xs ys : List α) :
    listBeq f xs ys = true ↔ List.Forall₂ (fun a b => f a b = true) xs ys := by
  induction xs generalizing ys with
  | nil => cases ys <;> simp [listBeq]
  | cons a as ih => cases ys <;> simp [listBeq, ih]

theorem listBeq_eq_iff {α : Type} [BEq α] [LawfulBEq α] (xs ys : List α) :
    listBeq (fun a b => a == b) xs ys = true ↔ xs = ys := by
  induction xs generalizing ys with
  | nil => cases ys <;> simp [listBeq]
  | cons a as ih => cases ys <;> simp [listBeq, ih]

theorem optBeq_eq_iff {α : Type} {f : α → α → Bool}
    (hf : ∀ a b, f a b = true ↔ a = b) (x y : Option α) :
    optBeq f x y = true ↔ x = y := by
  cases x <;> cases y <;> simp [optBeq, hf]

theorem optBeq_iff_optRel {α : Type} {f : α → α → Bool} {r : α → α → Prop}
    (hf : ∀ a b, f a b = true ↔ r a b) (x y : Option α) :
    optBeq f x y = true ↔ optRel r x y := by
  cases x <;> cases y <;> simp [optBeq, optRel, hf]

theorem optBeq_f32_iff (a b : Option F32) :
    optBeq F32.beq a b = true ↔ logprobEntryMatch a b := by
  cases a with
  | none => cases b <;> simp [optBeq, logprobEntryMatch]
  | some v =>
      cases b with
      | none => simp [optBeq, logprobEntryMatch]
      | some w =>
          simp only [optBeq, logprobEntryMatch, F32.beq_iff]
          constructor
          · rintro ⟨hv, rfl⟩
            exact Or.inr ⟨v, hv, rfl, rfl⟩
          · rintro (⟨h, -⟩ | ⟨u, hu, h1, h2⟩)
            · exact absurd h (Option.some_ne_none v)
            · obtain rfl : v = u := Option.some.inj h1
              obtain rfl : w = v := Option.some.inj h2
              exact ⟨hu, rfl⟩

theorem logprobs_beq_iff (x y : Option (List (Option F32))) :
    optBeq (listBeq (optBeq F32.beq)) x y = true ↔
      optRel (List.Forall₂ logprobEntryMatch) x y := by
  refine optBeq_iff_optRel (fun as bs => ?_) x y
  rw [listBeq_iff_forall2]
  constructor
  · exact fun h => h.imp fun a b hab => (optBeq_f32_iff a b).mp hab
  · exact fun h => h.imp fun a b hab => (optBeq_f32_iff a b).mpr hab

theorem tokens_beq_fieldwise (t u : Tokens) :
    Tokens.beq t u = true ↔
      t.text = u.text ∧ t.tokens = u.tokens ∧
        optRel (List.Forall₂ logprobEntryMatch) t.logprobs u.logprobs := by
  unfold Tokens.beq
  rw [Bool.and_eq_true, Bool.and_eq_true]
  rw [beq_iff_eq, optBeq_eq_iff (fun as bs => listBeq_eq_iff as bs),
    logprobs_beq_iff, and_assoc]

theorem runOp_keeps_id (p : Provider) (op : TraitOp) :
    ((runOp p op).1).id = p.id := by
  cases op with
  | opId => rfl
  | opName => rfl
  | opInitialize =>
      show ( Provider.initialize p).2.id = p.id
      unfold Provider.initialize
      by_cases h : p.failInit = true
      · rw [if_pos h]
      · rw [if_neg h]
  | opGenerate prompt mt t n s => rfl

theorem runOps_keeps_id (p : Provider) (ops : List TraitOp) :
    (runOps p ops).id = p.id := by
  induction ops generalizing p with
  | nil => rfl
  | cons op ops ih =>
      show (runOps (runOp p op).1 ops).id = p.id
      rw [ih, runOp_keeps_id]

theorem cutIndex_le_of_mem {stops : List (List Char)} {st : List Char}
    (h : st ∈ stops) (s : List Char) :
    cutIndex stops s ≤ (firstOcc st s).getD s.length := by
  induction stops with
  | nil => cases h
  | cons a as ih =>
      rw [List.mem_cons] at h
      show min ((firstOcc a s).getD s.length) (cutIndex as s) ≤ _
      rcases h with h | h
      · subst h; exact min_le_left _ _
      · exact le_trans (min_le_right _ _) (ih h)

theorem cutAtStops_length_le {stops : List (List Char)} {st : List Char}
    (h : st ∈ stops) {s : List Char} {i : Nat}
    (hi : firstOcc st s = some i) :
    (cutAtStops stops s).length ≤ i := by
  have h1 : (cutAtStops stops s).length ≤ cutIndex stops s := by
    unfold cutAtStops
    rw [List.length_take]
    exact min_le_left _ _
  have h2 := cutIndex_le_of_mem h s
  rw [hi] at h2
  exact le_trans h1 h2

theorem beqComm {α : Type} [BEq α] [LawfulBEq α] (a b : α) :
    (a == b) = (b == a) := by
  by_cases h : a = b
  · subst h; rfl
  · rw [beq_eq_false_iff_ne.mpr h, beq_eq_false_iff_ne.mpr (Ne.symm h)]

/-- Claim C1: for every valid `generate` call (non-empty prompt, `n ≥ 1`),
if the call succeeds then the returned Generation Result has exactly `n`
completions; a partial batch is never returned as a success. -/
theorem generate_success_completions_length
    (p : Provider) (prompt : String) (mt : Option Int) (t : F32) (n : Nat)
    (s : Option (List String)) (g : Generation)
    (hp : prompt ≠ "") (hn : 1 ≤ n)
    (hok : p.generate prompt mt t n s = .ok g) :
    g.completions.length = n := by
  unfold Provider.generate at hok
  rw [if_neg hp, if_neg (Nat.one_le_iff_ne_zero.mp hn)] at hok
  have hg := Except.ok.inj hok
  subst hg
  simp [List.length_replicate]

/-- Witness for C1: the concrete call `generate "hi" none 1.0 3 (some
["STOP"])` on the example double succeeds with exactly 3 completions. -/
theorem generate_success_completions_length_witness :
    gEx.completions.length = 3 :=
  generate_success_completions_length pEx "hi" none (F32.num 1) 3
    (some ["STOP"]) gEx (by decide) (by decide) (by rfl)

/-- Claim C2 counterexample: a Token Record carrying a NaN log-probability
is not equal to itself under the derived `PartialEq` (IEEE `==` is not
reflexive at NaN), so the claimed reflexivity fails for this value. -/
theorem tokens_beq_not_refl_on_nan :
    Tokens.beq ⟨"x", none, some [some F32.nan]⟩
      ⟨"x", none, some [some F32.nan]⟩ = false := by
  rfl

/-- Claim C2 (amended): the derived equality of Token Records is field-wise
(text equal, token sequences equal, log-probability sequences matching
element-wise including which elements are absent), symmetric and transitive
for all Token Records, and reflexive on every Token Record whose
log-probabilities contain no NaN. -/
theorem tokens_equality_props :
    (∀ t u : Tokens, Tokens.beq t u = Tokens.beq u t)
    ∧ (∀ t u v : Tokens, Tokens.beq t u = true → Tokens.beq u v = true →
        Tokens.beq t v = true)
    ∧ (∀ t : Tokens, t.nanFree = true → Tokens.beq t t = true)
    ∧ (∀ t u : Tokens,
        Tokens.beq t u = true ↔
          t.text = u.text ∧ t.tokens = u.tokens ∧
            optRel (List.Forall₂ logprobEntryMatch) t.logprobs u.logprobs) := by
  refine ⟨?_, ?_, ?_, tokens_beq_fieldwise⟩
  · intro t u
    unfold Tokens.beq
    rw [beqComm t.text u.text,
      optBeq_symm (fun as bs => listBeq_symm (fun a b => beqComm a b) as bs)
        t.tokens u.tokens,
      optBeq_symm
        (fun as bs => listBeq_symm (fun a b => optBeq_symm F32.beq_symm a b) as bs)
        t.logprobs u.logprobs]
  · intro t u v h1 h2
    unfold Tokens.beq at h1 h2 ⊢
    rw [Bool.and_eq_true, Bool.and_eq_true] at h1 h2 ⊢
    refine ⟨⟨?_, ?_⟩, ?_⟩
    · exact beq_iff_eq.mpr ((eq_of_beq h1.1.1).trans (eq_of_beq h2.1.1))
    · have hstr : ∀ a b c : String, (a == b) = true → (b == c) = true →
          (a == c) = true :=
        fun a b c hx hy => beq_iff_eq.mpr ((eq_of_beq hx).trans (eq_of_beq hy))
      have hlist : ∀ as bs cs : List String,
          listBeq (fun a b => a == b) as bs = true →
            listBeq (fun a b => a == b) bs cs = true →
              listBeq (fun a b => a == b) as cs = true :=
        fun as bs cs hab hbc => listBeq_trans hstr hab hbc
      exact optBeq_trans hlist h1.1.2 h2.1.2
    · have hopt : ∀ x y z : Option F32, optBeq F32.beq x y = true →
          optBeq F32.beq y z = true → optBeq F32.beq x z = true :=
        fun x y z hx2 hy2 =>
          optBeq_trans
            (fun (a b c : F32) (ha : F32.beq a b = true)
                (hb : F32.beq b c = true) => F32.beq_trans ha hb)
            hx2 hy2
      have hlist : ∀ as bs cs : List (Option F32),
          listBeq (optBeq F32.beq) as bs = true →
            listBeq (optBeq F32.beq) bs cs = true →
              listBeq (optBeq F32.beq) as cs = true :=
        fun as bs cs hab hbc => listBeq_trans hopt hab hbc
      exact optBeq_trans hlist h1.2 h2.2
  · intro t hfree
    unfold Tokens.beq
    rw [Bool.and_eq_true, Bool.and_eq_true]
    refine ⟨⟨beq_self_eq_true t.text, ?_⟩, ?_⟩
    · exact optBeq_refl (fun as _ => listBeq_refl (fun a _ => beq_self_eq_true a))
    · refine optBeq_refl (fun ls hls => listBeq_refl (fun o ho => ?_))
      cases o with
      | none => rfl
      | some v =>
          have hall : ls.all (fun o =>
              match o with
              | some F32.nan => false
              | _ => true) = true := by
            unfold Tokens.nanFree at hfree
            rw [hls] at hfree
            exact hfree
          have hv := List.all_eq_true.mp hall (some v) ho
          have hvn : v ≠ F32.nan := by
            intro hEq
            subst hEq
            simp at hv
          show F32.beq v v = true
          exact F32.beq_refl_of_not_nan hvn

/-- Witness for C2 (amended): reflexivity applied to a concrete NaN-free
Token Record with a present and a missing log-probability. -/
theorem tokens_equality_props_witness :
    Tokens.beq ⟨"a", some ["a"], some [some (F32.num 1), none]⟩
      ⟨"a", some ["a"], some [some (F32.num 1), none]⟩ = true :=
  tokens_equality_props.2.2.1 ⟨"a", some ["a"], some [some (F32.num 1), none]⟩
    (by decide)

/-- Claim C3 counterexample: the `Tokens` type admits a value with both
sequences present and differing lengths, so the claimed invariant does not
hold of every Token Record value. -/
theorem tokens_length_invariant_not_forced :
    ¬ (∀ (t : Tokens) (ts : List String) (ls : List (Option F32)),
        t.tokens = some ts → t.logprobs = some ls → ts.length = ls.length) := by
  intro h
  have h1 := h ⟨"a", some ["a"], some [none, none]⟩ ["a"] [none, none] rfl rfl
  exact absurd h1 (by decide)

/-- Claim C3 (amended): the length invariant holds of every Token Record in
a Generation Result returned by the modelled conforming `generate` (the
prompt record and every completion record), though the raw type does not
force it. -/
theorem generated_records_length_invariant
    (p : Provider) (prompt : String) (mt : Option Int) (t : F32) (n : Nat)
    (s : Option (List String)) (g : Generation)
    (hok : p.generate prompt mt t n s = .ok g) :
    ∀ r : Tokens, (r = g.prompt ∨ r ∈ g.completions) →
      ∀ (ts : List String) (ls : List (Option F32)),
        r.tokens = some ts → r.logprobs = some ls → ts.length = ls.length := by
  unfold Provider.generate at hok
  by_cases hp : prompt = ""
  · rw [if_pos hp] at hok; cases hok
  · rw [if_neg hp] at hok
    by_cases hn : n = 0
    · rw [if_pos hn] at hok; cases hok
    · rw [if_neg hn] at hok
      have hg := Except.ok.inj hok
      subst hg
      intro r hr ts ls hts hls
      have hrec : ∃ str : String, r = mkTokenRecord str := by
        rcases hr with hr | hr
        · exact ⟨prompt, hr⟩
        · exact ⟨_, List.eq_of_mem_replicate hr⟩
      obtain ⟨str, rfl⟩ := hrec
      simp only [mkTokenRecord] at hts hls
      have h1 : ts = str.data.map fun c => String.mk [c] :=
        (Option.some.inj hts).symm
      have h2 : ls = str.data.map fun _ => (none : Option F32) :=
        (Option.some.inj hls).symm
      subst h1
      subst h2
      simp [List.length_map]

/-- Witness for C3 (amended): the prompt record of the concrete successful
call has tokens `["h", "i"]` and log-probabilities `[none, none]`, of equal
length. -/
theorem generated_records_length_invariant_witness :
    (["h", "i"] : List String).length
      = ([none, none] : List (Option F32)).length :=
  generated_records_length_invariant pEx "hi" none (F32.num 1) 3
    (some ["STOP"]) gEx (by rfl) (mkTokenRecord "hi") (Or.inl (by rfl))
    ["h", "i"] [none, none] (by rfl) (by rfl)

/-- Claim C4: `generate` with `n = 0`, and `generate` with an empty prompt,
fail with an Invalid Request Error and produce no Generation Result. -/
theorem generate_rejects_invalid_request
    (p : Provider) (prompt : String) (mt : Option Int) (t : F32) (n : Nat)
    (s : Option (List String)) (h : n = 0 ∨ prompt = "") :
    ∃ e : GenError, p.generate prompt mt t n s = .error e
      ∧ e.kind = ErrorKind.invalidRequest := by
  unfold Provider.generate
  by_cases hp : prompt = ""
  · rw [if_pos hp]
    exact ⟨⟨.invalidRequest, "empty prompt"⟩, rfl, rfl⟩
  · have hn : n = 0 := h.resolve_right hp
    subst hn
    rw [if_neg hp]
    exact ⟨⟨.invalidRequest, "n is zero"⟩, rfl, rfl⟩

/-- Witness for C4: the concrete call with `n = 0` on the example double
fails with an Invalid Request Error. -/
theorem generate_rejects_invalid_request_witness :
    ∃ e : GenError,
      pEx.generate "hello" none (F32.num 1) 0 none = .error e
        ∧ e.kind = ErrorKind.invalidRequest :=
  generate_rejects_invalid_request pEx "hello" none (F32.num 1) 0 none
    (Or.inl rfl)

/-- Claim C5: neither `initialize` nor `generate` panics or aborts for an
ordinary failure: both are total, and every outcome of a call is either the
success case or the error case of the returned `Result`. -/
theorem operations_total_no_panic :
    (∀ (p : Provider) (prompt : String) (mt : Option Int) (t : F32) (n : Nat)
        (s : Option (List String)),
      (∃ g, p.generate prompt mt t n s = .ok g)
        ∨ (∃ e, p.generate prompt mt t n s = .error e))
    ∧ (∀ p : Provider,
        ( Provider.initialize p).1 = .ok ()
          ∨ ∃ e, ( Provider.initialize p).1 = .error e) := by
  constructor
  · intro p prompt mt t n s
    cases h : p.generate prompt mt t n s with
    | ok g => exact Or.inl ⟨g, rfl⟩
    | error e => exact Or.inr ⟨e, rfl⟩
  · intro p
    cases h : ( Provider.initialize p).1 with
    | ok u => cases u; exact Or.inl rfl
    | error e => exact Or.inr ⟨e, rfl⟩

/-- Claim C6: `id()` is pure (it changes no state), stable (after any two
sequences of trait calls on the same instance it returns the same string,
the instance's original identifier), and on a well-formed instance that
identifier is non-empty. -/
theorem id_stable_pure_nonempty
    (p : Provider) (ops₁ ops₂ : List TraitOp) (hwf : p.wf) :
    (runOp p .opId).1 = p
      ∧ (runOp (runOps p ops₁) .opId).2 = (runOp (runOps p ops₂) .opId).2
      ∧ (runOp p .opId).2 = .str p.id
      ∧ p.id ≠ "" := by
  refine ⟨rfl, ?_, rfl, hwf⟩
  show OpResult.str (runOps p ops₁).id = OpResult.str (runOps p ops₂).id
  rw [runOps_keeps_id, runOps_keeps_id]

/-- Witness for C6: on the example double, `id()` gives the same answer
before and after an `initialize` call, changes nothing, and is non-empty. -/
theorem id_stable_pure_nonempty_witness :
    (runOp pEx .opId).1 = pEx
      ∧ (runOp (runOps pEx []) .opId).2
          = (runOp (runOps pEx [TraitOp.opInitialize]) .opId).2
      ∧ (runOp pEx .opId).2 = .str pEx.id
      ∧ pEx.id ≠ "" :=
  id_stable_pure_nonempty pEx [] [TraitOp.opInitialize]
    (by show pEx.id ≠ ""; decide)

/-- Claim C7: when stop sequences are supplied, each returned completion's
text ends no later than the first occurrence of any stop sequence in the
raw output: its length is at most that occurrence's start index, so it
contains no text past the first occurrence. -/
theorem stop_truncation_bound
    (p : Provider) (prompt : String) (mt : Option Int) (t : F32) (n : Nat)
    (stops : List String) (g : Generation)
    (hok : p.generate prompt mt t n (some stops) = .ok g)
    (c : Tokens) (hc : c ∈ g.completions)
    (st : String) (hst : st ∈ stops)
    (i : Nat) (hi : firstOcc st.data p.rawOutput.data = some i) :
    c.text.data.length ≤ i := by
  unfold Provider.generate at hok
  by_cases hp : prompt = ""
  · rw [if_pos hp] at hok; cases hok
  · rw [if_neg hp] at hok
    by_cases hn : n = 0
    · rw [if_pos hn] at hok; cases hok
    · rw [if_neg hn] at hok
      have hg := Except.ok.inj hok
      subst hg
      have hc2 : c = mkTokenRecord
          (String.mk (cutAtStops (stops.map String.data) p.rawOutput.data)) :=
        List.eq_of_mem_replicate hc
      subst hc2
      have hmem : st.data ∈ stops.map String.data :=
        List.mem_map_of_mem String.data hst
      exact cutAtStops_length_le hmem hi

/-- Witness for C7: on the example double, whose raw output is
`"hello STOP world"` with `"STOP"` first occurring at index 6, the
returned completion text `"hello "` has length at most 6. -/
theorem stop_truncation_bound_witness :
    (mkTokenRecord "hello ").text.data.length ≤ 6 :=
  stop_truncation_bound pEx "hi" none (F32.num 1) 3 ["STOP"] gEx (by rfl)
    (mkTokenRecord "hello ") (by decide) "STOP" (by decide) 6 (by rfl)

/-- Claim C8: `id`, `name` and `generate` take the receiver by shared
reference and all request parameters by value, so dispatching them returns
the instance unchanged; `initialize` is the only trait operation with an
exclusive receiver, and it can change the instance. -/
theorem receiver_modes_frame :
    (∀ (p : Provider) (prompt : String) (mt : Option Int) (t : F32) (n : Nat)
        (s : Option (List String)),
      (runOp p (.opGenerate prompt mt t n s)).1 = p)
    ∧ (∀ p : Provider, (runOp p .opId).1 = p)
    ∧ (∀ p : Provider, (runOp p .opName).1 = p)
    ∧ (∃ p : Provider, (runOp p .opInitialize).1 ≠ p) := by
  refine ⟨fun p _ _ _ _ _ => rfl, fun p => rfl, fun p => rfl, ⟨pEx, ?_⟩⟩
  decide

/-- Claim C9: all fields of `Tokens` and `Generation` are public and there
is no validating constructor: a `Tokens` value with `logprobs` present but
`tokens` absent, a `Tokens` value with mismatched sequence lengths, and a
`Generation` with an empty batch are all constructible. -/
theorem tokens_fields_unvalidated :
    (∃ t : Tokens, t.tokens = none ∧ t.logprobs.map List.length = some 1)
    ∧ (∃ t : Tokens, t.tokens.map List.length = some 1
        ∧ t.logprobs.map List.length = some 2)
    ∧ (∃ g : Generation, g.completions = []) :=
  ⟨⟨⟨"a", none, some [some (F32.num 0)]⟩, rfl, rfl⟩,
    ⟨⟨"a", some ["a"], some [none, none]⟩, rfl, rfl⟩,
    ⟨⟨"p", "m", [], ⟨"a", none, none⟩⟩, rfl⟩⟩

/-- Claim C10: both operations report failure through the single untyped
`anyhow` channel, so the taxonomy's kinds are not distinguishable by type:
two errors of different kinds are identical at the interface, and every
classifier working from what the interface type exposes gives them the same
answer. -/
theorem error_kind_type_erased :
    ∃ e₁ e₂ : GenError, e₁.kind ≠ e₂.kind ∧ e₁.toAnyhow = e₂.toAnyhow
      ∧ ∀ f : String → ErrorKind, f e₁.toAnyhow = f e₂.toAnyhow :=
  ⟨⟨.configError, "request failed"⟩, ⟨.invalidRequest, "request failed"⟩,
    by decide, rfl, fun f => rfl⟩
